import Mathlib

/-!
Verification of the concurrency core of the `mpsu_apsi_combined` repository.

Part 1 models the multi-producer single-consumer sequencer of
`MPSU/libvolepsi/include/macoro/sequence_mpsc.h`: the claim/publish state
(`m_published`, `m_nextToClaim`), the constructor's initialization loop,
`last_published_after`, the lazy claim operations and their `co_await`
operators, and the `ready_to_resume` resumption race.

Part 2 models the multiplexing socket scheduler of
`MPSU/libvolepsi/include/coproto/Socket/SocketScheduler.h`: the
`ControlBlock` codec, the destructor's `Status` check, the cancellation
callbacks of `SendOperation2`/`RecvOperation2`, the writer task's framing
loop, and the receiver task's header/size dispatch.

Sequence numbers (C++ `std::size_t`) are modelled as `Nat`; the claims under
study quantify over regimes where the 64-bit wrap-around is not exercised, so
unbounded naturals are a faithful model there.  Ring indexing `seq & mask`
is kept as bitwise and (`&&&`) exactly as in the source.
-/

namespace Macoro

/-- State of a `sequence_mpsc<SEQUENCE, TRAITS>` object (sequence_mpsc.h):
`m_sequenceMask` is `bufferSize - 1`, `m_published` is the array of published
sequence numbers indexed by `seq &&& m_sequenceMask`, and `m_nextToClaim` is
the producer claim cursor.  The consumer barrier and the awaiter stack are
external to the claims modelled on this state. -/
structure sequence_mpsc where
  m_sequenceMask : Nat
  m_published : Nat → Nat
  m_nextToClaim : Nat

/-- `buffer_size()` from the source: `m_sequenceMask + 1`. -/
def buffer_size (s : sequence_mpsc) : Nat := s.m_sequenceMask + 1

/-- One store `published[idx] := v` into the published array. -/
def store (pub : Nat → Nat) (idx v : Nat) : Nat → Nat :=
  fun i => if i = idx then v else pub i

/-- The constructor's initialization loop
`do { m_published[seq & mask] = seq; } while (seq++ != initialSequence)`,
unrolled as `n` iterations starting at `seq`. -/
def ctor_loop (mask : Nat) : Nat → (Nat → Nat) → Nat → (Nat → Nat)
  | 0, pub, _ => pub
  | n + 1, pub, seq => ctor_loop mask n (store pub (seq &&& mask) seq) (seq + 1)

/-- The `sequence_mpsc` constructor: mask `bufferSize - 1`, published array
initialized by the loop running `bufferSize` times from
`initialSequence - (bufferSize - 1)`, and `m_nextToClaim = initialSequence + 1`. -/
def mk_sequence_mpsc (bufferSize initialSequence : Nat) : sequence_mpsc :=
  { m_sequenceMask := bufferSize - 1
  , m_published :=
      ctor_loop (bufferSize - 1) bufferSize (fun _ => 0)
        (initialSequence - (bufferSize - 1))
  , m_nextToClaim := initialSequence + 1 }

/-- `last_published_after(lastKnownPublished)`: scan forward from
`lastKnownPublished + 1` while `m_published[seq & mask] == seq`.  The C++
`while` loop is rendered with an explicit iteration bound `fuel`; the theorems
assume a mismatch occurs within `fuel` steps, which is exactly when the C++
loop terminates. -/
def last_published_after (s : sequence_mpsc) : Nat → Nat → Nat
  | 0, lastKnownPublished => lastKnownPublished
  | fuel + 1, lastKnownPublished =>
    let seq := lastKnownPublished + 1
    if s.m_published (seq &&& s.m_sequenceMask) = seq then
      last_published_after s fuel seq
    else
      lastKnownPublished

/-- A `sequence_mpsc_claim_operation`: its constructor stores only the count,
clamped by `count < buffer_size() ? count : buffer_size()`. -/
structure sequence_mpsc_claim_operation where
  m_count : Nat

/-- Half-open range `[m_begin, m_end)` of claimed sequence numbers
(`sequence_range`). -/
structure sequence_range where
  m_begin : Nat
  m_end : Nat
deriving DecidableEq

/-- `claim_up_to(count)`: constructs a `sequence_mpsc_claim_operation` holding
the clamped count.  The sequencer state is returned unchanged: the constructor
performs no atomic operation. -/
def claim_up_to (s : sequence_mpsc) (count : Nat) :
    sequence_mpsc × sequence_mpsc_claim_operation :=
  (s, { m_count := if count < buffer_size s then count else buffer_size s })

/-- The `operator co_await` of `sequence_mpsc_claim_operation`: performs
`first = m_nextToClaim.fetch_add(m_count)` and builds the awaiter carrying
`sequence_range{ first, first + m_count }`. -/
def claim_operation_coawait (s : sequence_mpsc)
    (op : sequence_mpsc_claim_operation) : sequence_mpsc × sequence_range :=
  let first := s.m_nextToClaim
  ({ s with m_nextToClaim := first + op.m_count },
   { m_begin := first, m_end := first + op.m_count })

/-- A `sequence_mpsc_claim_one_operation`: its constructor stores only the
sequencer reference. -/
structure sequence_mpsc_claim_one_operation where

/-- `claim_one()`: constructs a `sequence_mpsc_claim_one_operation`.  The
sequencer state is returned unchanged: the constructor performs no atomic
operation. -/
def claim_one (s : sequence_mpsc) :
    sequence_mpsc × sequence_mpsc_claim_one_operation :=
  (s, {})

/-- The `operator co_await` of `sequence_mpsc_claim_one_operation`: performs
`m_nextToClaim.fetch_add(1)` and yields the claimed sequence number. -/
def claim_one_coawait (s : sequence_mpsc) : sequence_mpsc × Nat :=
  ({ s with m_nextToClaim := s.m_nextToClaim + 1 }, s.m_nextToClaim)

/-- `publish(sequence)`: store `sequence` into
`m_published[sequence & m_sequenceMask]`. -/
def publish (s : sequence_mpsc) (sequence : Nat) : sequence_mpsc :=
  { s with
    m_published := store s.m_published (sequence &&& s.m_sequenceMask) sequence }

end Macoro

namespace Macoro

/-- C1 (amended): awaiting the awaitable returned by `claim_up_to(count)`
fetch-adds `min(count, N)` on `next_to_claim` and yields the contiguous range
`[first, first + min(count, N))`, where `first` is the value of
`next_to_claim` before the fetch-add and `N` is the ring size. -/
theorem claim_up_to_coawait_adds_min_and_yields_clamped_range
    (s : sequence_mpsc) (count : Nat) :
    (claim_operation_coawait s (claim_up_to s count).2).1.m_nextToClaim
      = s.m_nextToClaim + min count (buffer_size s)
    ∧ (claim_operation_coawait s (claim_up_to s count).2).2.m_begin
      = s.m_nextToClaim
    ∧ (claim_operation_coawait s (claim_up_to s count).2).2.m_end
      = s.m_nextToClaim + min count (buffer_size s) := by
  refine ⟨?_, rfl, ?_⟩ <;>
    simp [claim_operation_coawait, claim_up_to, Nat.min_def] <;>
    split_ifs <;> omega

/-- C1 (counterexample): with ring size `N = 4` and `count = 10`, the yielded
range ends at `first + 4`, not `first + count = first + 10`, so the range is
not `[first, first + count)` as the claim states. -/
theorem claim_up_to_coawait_range_end_ne_first_add_count :
    (claim_operation_coawait ⟨3, fun _ => 0, 0⟩
        (claim_up_to ⟨3, fun _ => 0, 0⟩ 10).2).2.m_end
      = 4
    ∧ (4 : Nat) ≠ (⟨3, fun _ => 0, 0⟩ : sequence_mpsc).m_nextToClaim + 10 := by
  constructor
  · rfl
  · decide

/-- The scan of `last_published_after` steps to `seq = lastKnown + 1` when the
published slot matches. -/
theorem last_published_after_step_match (s : sequence_mpsc) (fuel lastKnown : Nat)
    (hm : s.m_published ((lastKnown + 1) &&& s.m_sequenceMask) = lastKnown + 1) :
    last_published_after s (fuel + 1) lastKnown
      = last_published_after s fuel (lastKnown + 1) := by
  simp [last_published_after, hm]

/-- The scan of `last_published_after` stops when the published slot
mismatches. -/
theorem last_published_after_step_mismatch (s : sequence_mpsc) (fuel lastKnown : Nat)
    (hm : s.m_published ((lastKnown + 1) &&& s.m_sequenceMask) ≠ lastKnown + 1) :
    last_published_after s (fuel + 1) lastKnown = lastKnown := by
  simp [last_published_after, hm]

/-- C5: `last_published_after(s)` returns the greatest sequence `r ≥ s` such
that `published[i & mask] == i` for every `i` in `(s, r]`: the result never
precedes the argument, every sequence in `(s, r]` is published, and no larger
`r'` has that property.  The hypothesis says a mismatch occurs within `fuel`
scan steps, which is exactly the condition under which the C++ `while` loop
terminates. -/
theorem last_published_after_greatest (s : sequence_mpsc) (fuel lastKnown : Nat)
    (h : ∃ j, j < fuel ∧
      s.m_published ((lastKnown + 1 + j) &&& s.m_sequenceMask) ≠ lastKnown + 1 + j) :
    lastKnown ≤ last_published_after s fuel lastKnown
    ∧ (∀ i, lastKnown < i → i ≤ last_published_after s fuel lastKnown →
        s.m_published (i &&& s.m_sequenceMask) = i)
    ∧ (∀ r, last_published_after s fuel lastKnown < r →
        ¬ ∀ i, lastKnown < i → i ≤ r →
          s.m_published (i &&& s.m_sequenceMask) = i) := by
  induction fuel generalizing lastKnown with
  | zero => obtain ⟨j, hj, _⟩ := h; omega
  | succ fuel ih =>
    by_cases hm : s.m_published ((lastKnown + 1) &&& s.m_sequenceMask) = lastKnown + 1
    · rw [last_published_after_step_match s fuel lastKnown hm]
      have h' : ∃ j, j < fuel ∧
          s.m_published ((lastKnown + 1 + 1 + j) &&& s.m_sequenceMask)
            ≠ lastKnown + 1 + 1 + j := by
        obtain ⟨j, hj, hne⟩ := h
        match j with
        | 0 => exact absurd hm hne
        | j' + 1 =>
          refine ⟨j', by omega, ?_⟩
          have e : lastKnown + 1 + 1 + j' = lastKnown + 1 + (j' + 1) := by omega
          rw [e]; exact hne
      obtain ⟨ih1, ih2, ih3⟩ := ih (lastKnown + 1) h'
      refine ⟨by omega, ?_, ?_⟩
      · intro i h1 h2
        rcases Nat.lt_or_ge (lastKnown + 1) i with hi | hi
        · exact ih2 i hi h2
        · have e : i = lastKnown + 1 := by omega
          rw [e]; exact hm
      · intro r hr hall
        exact ih3 r hr fun i h1 h2 => hall i (by omega) h2
    · rw [last_published_after_step_mismatch s fuel lastKnown hm]
      refine ⟨Nat.le_refl _, ?_, ?_⟩
      · intro i h1 h2; omega
      · intro r hr hall
        exact hm (hall (lastKnown + 1) (by omega) (by omega))

/-- A concrete published array for witnesses: sequences 1 and 2 published in a
ring of size 4, sequence 3 not yet published. -/
def sample_published : Nat → Nat :=
  fun i => if i = 1 then 1 else if i = 2 then 2 else 0

/-- A concrete sequencer state over `sample_published` with mask 3. -/
def sample_mpsc : sequence_mpsc := ⟨3, sample_published, 0⟩

/-- Witness for C5 at a concrete state: the scan from 0 over `sample_mpsc`
stops at 2. -/
theorem last_published_after_greatest_witness :
    (∃ j, j < 5 ∧
      sample_mpsc.m_published ((0 + 1 + j) &&& sample_mpsc.m_sequenceMask)
        ≠ 0 + 1 + j)
    ∧ (0 ≤ last_published_after sample_mpsc 5 0
      ∧ (∀ i, 0 < i → i ≤ last_published_after sample_mpsc 5 0 →
          sample_mpsc.m_published (i &&& sample_mpsc.m_sequenceMask) = i)
      ∧ (∀ r, last_published_after sample_mpsc 5 0 < r →
          ¬ ∀ i, 0 < i → i ≤ r →
            sample_mpsc.m_published (i &&& sample_mpsc.m_sequenceMask) = i)) :=
  ⟨⟨2, by decide, by decide⟩,
    last_published_after_greatest sample_mpsc 5 0 ⟨2, by decide, by decide⟩⟩

/-- C4: constructing `claim_one()` or `claim_up_to(count)` leaves the whole
sequencer state (in particular `next_to_claim`) unchanged; the fetch-add on
`next_to_claim` happens only in the `operator co_await` of the returned
awaitable. -/
theorem claim_construction_is_lazy (s : sequence_mpsc) (count : Nat) :
    (claim_one s).1 = s
    ∧ (claim_up_to s count).1 = s
    ∧ (claim_one_coawait s).1.m_nextToClaim = s.m_nextToClaim + 1
    ∧ (claim_one_coawait s).1.m_published = s.m_published
    ∧ (claim_one_coawait s).1.m_sequenceMask = s.m_sequenceMask
    ∧ (claim_operation_coawait s (claim_up_to s count).2).1.m_nextToClaim
        = s.m_nextToClaim + (claim_up_to s count).2.m_count := by
  exact ⟨rfl, rfl, rfl, rfl, rfl, rfl⟩

theorem store_self (pub : Nat → Nat) (idx v : Nat) : store pub idx v idx = v := by
  simp [store]

theorem store_other (pub : Nat → Nat) (idx v i : Nat) (h : i ≠ idx) :
    store pub idx v i = pub i := by
  simp [store, h]

/-- Indices the constructor loop never writes keep their previous value. -/
theorem ctor_loop_untouched (k : Nat) :
    ∀ n pub seq i, (∀ j, j < n → (seq + j) % 2 ^ k ≠ i) →
      ctor_loop (2 ^ k - 1) n pub seq i = pub i := by
  intro n
  induction n with
  | zero => intro pub seq i _; rfl
  | succ n ih =>
    intro pub seq i h
    simp only [ctor_loop]
    have h1 : ∀ j, j < n → (seq + 1 + j) % 2 ^ k ≠ i := by
      intro j hj
      have e : seq + 1 + j = seq + (j + 1) := by omega
      rw [e]; exact h (j + 1) (by omega)
    rw [ih (store pub (seq &&& (2 ^ k - 1)) seq) (seq + 1) i h1]
    have h0 : seq % 2 ^ k ≠ i := by
      have := h 0 (by omega); simpa using this
    rw [Nat.and_pow_two_sub_one_eq_mod]
    exact store_other pub _ seq i (Ne.symm h0)

/-- Each of the `n ≤ 2^k` consecutive sequence numbers written by the
constructor loop survives to the end of the loop: residues of at most `2^k`
consecutive values are pairwise distinct, so no later iteration overwrites an
earlier one. -/
theorem ctor_loop_written (k : Nat) :
    ∀ n pub seq j, j < n → n ≤ 2 ^ k →
      ctor_loop (2 ^ k - 1) n pub seq ((seq + j) % 2 ^ k) = seq + j := by
  intro n
  induction n with
  | zero => intro pub seq j hj _; omega
  | succ n ih =>
    intro pub seq j hj hn
    simp only [ctor_loop]
    match j with
    | 0 =>
      have huntouched : ∀ j2, j2 < n → (seq + 1 + j2) % 2 ^ k ≠ (seq + 0) % 2 ^ k := by
        intro j2 hj2 heq
        have e : seq + 1 + j2 = seq + (1 + j2) := by omega
        rw [e, Nat.add_zero] at heq
        have hme : (1 + j2) ≡ 0 [MOD 2 ^ k] :=
          Nat.ModEq.add_left_cancel' seq (by simpa [Nat.ModEq] using heq)
        have hdvd : 2 ^ k ∣ 1 + j2 := (Nat.modEq_zero_iff_dvd).1 hme
        have hle : 2 ^ k ≤ 1 + j2 := Nat.le_of_dvd (by omega) hdvd
        omega
      rw [ctor_loop_untouched k n _ (seq + 1) _ huntouched]
      rw [Nat.add_zero, Nat.and_pow_two_sub_one_eq_mod]
      exact store_self pub _ seq
    | j' + 1 =>
      have e : seq + (j' + 1) = (seq + 1) + j' := by omega
      rw [e]
      exact ih (store pub (seq &&& (2 ^ k - 1)) seq) (seq + 1) j' (by omega) (by omega)

/-- Two values in a window of fewer than `N` consecutive naturals with the
same residue modulo `N` are equal. -/
theorem eq_of_window_of_mod_eq (N a b : Nat) (hab : a ≤ b) (hlt : b - a < N)
    (hm : a % N = b % N) : a = b := by
  have e : b = a + (b - a) := by omega
  rw [e] at hm
  have hme : (b - a) ≡ 0 [MOD N] :=
    Nat.ModEq.add_left_cancel' a (by simpa [Nat.ModEq] using hm.symm)
  have hdvd : N ∣ b - a := (Nat.modEq_zero_iff_dvd).1 hme
  rcases Nat.eq_zero_or_pos (b - a) with h0 | h0
  · omega
  · have := Nat.le_of_dvd h0 hdvd
    omega

/-- C6: after constructing a `sequence_mpsc` with power-of-two `bufferSize = N`
and initial sequence `initial`, every index `i < N` of `published[]` holds a
sequence number strictly less than `initial + 1`, namely the unique value of
the window `[initial - N + 1, initial]` congruent to `i` modulo `N`.  The
hypothesis `N - 1 ≤ initial` delimits the regime in which the C++ unsigned
wrap-around `initialSequence - (bufferSize - 1)` does not occur. -/
theorem ctor_published_initialized_below_initial
    (N k initial : Nat) (hNk : N = 2 ^ k) (hinit : N - 1 ≤ initial)
    (i : Nat) (hi : i < N) :
    (mk_sequence_mpsc N initial).m_published i < initial + 1
    ∧ initial + 1 - N ≤ (mk_sequence_mpsc N initial).m_published i
    ∧ (mk_sequence_mpsc N initial).m_published i % N = i
    ∧ ∀ v, initial + 1 - N ≤ v → v < initial + 1 → v % N = i →
        v = (mk_sequence_mpsc N initial).m_published i := by
  subst hNk
  have hN : 0 < 2 ^ k := Nat.pos_pow_of_pos k (by omega)
  set N := 2 ^ k with hNdef
  set seq0 := initial - (N - 1) with hseq0
  have ha : seq0 % N < N := Nat.mod_lt _ hN
  set j := (i + N - seq0 % N) % N with hjdef
  have hj_lt : j < N := Nat.mod_lt _ hN
  have hseq : (seq0 + j) % N = i := by
    have hx : seq0 % N ≤ seq0 := Nat.mod_le _ _
    obtain ⟨q, hq⟩ : ∃ q, seq0 - seq0 % N = N * q :=
      ⟨seq0 / N, by have := Nat.div_add_mod seq0 N; omega⟩
    have key : (seq0 + (i + N - seq0 % N)) % N = i := by
      have e : seq0 + (i + N - seq0 % N) = N * q + (N + i) := by omega
      rw [e, Nat.mul_add_mod, Nat.add_mod_left]
      exact Nat.mod_eq_of_lt hi
    rw [hjdef, Nat.add_mod_mod, key]
  have hpub : (mk_sequence_mpsc N initial).m_published i = seq0 + j := by
    have := ctor_loop_written k N (fun _ => 0) seq0 j hj_lt (le_refl N)
    rw [hseq] at this
    simpa [mk_sequence_mpsc] using this
  refine ⟨by omega, by omega, by rw [hpub]; exact hseq, ?_⟩
  intro v hv1 hv2 hv3
  rw [hpub]
  rcases Nat.le_total v (seq0 + j) with hle | hle
  · exact eq_of_window_of_mod_eq N v (seq0 + j) hle (by omega)
      (by rw [hv3, hseq])
  · exact (eq_of_window_of_mod_eq N (seq0 + j) v hle (by omega)
      (by rw [hv3, hseq])).symm

/-- Witness for C6 at `N = 4`, `initial = 10`, index `i = 2`: the stored value
is 10, the unique element of `[7, 10]` congruent to 2 mod 4. -/
theorem ctor_published_initialized_below_initial_witness :
    ((4 : Nat) = 2 ^ 2 ∧ 4 - 1 ≤ 10 ∧ 2 < 4)
    ∧ ((mk_sequence_mpsc 4 10).m_published 2 < 11
      ∧ 11 - 4 ≤ (mk_sequence_mpsc 4 10).m_published 2
      ∧ (mk_sequence_mpsc 4 10).m_published 2 % 4 = 2
      ∧ ∀ v, 11 - 4 ≤ v → v < 11 → v % 4 = 2 →
          v = (mk_sequence_mpsc 4 10).m_published 2) :=
  ⟨⟨by decide, by decide, by decide⟩,
    ctor_published_initialized_below_initial 4 2 10 (by decide) (by decide)
      2 (by decide)⟩

/-- An atomic `exchange(v)` on a `bool`: returns the old value and the new
flag state.  Both `await_suspend` and `resume` of
`sequence_mpsc_wait_operation_base` perform `m_readyToResume.exchange(true)`. -/
def exchange_flag (flag v : Bool) : Bool × Bool := (flag, v)

/-- One side of the resumption race.  `await_suspend` runs
`return !m_readyToResume.exchange(true)`: the awaiting coroutine is resumed by
this side (by returning `false` from `await_suspend`) exactly when the
exchange returned `true`.  The first component records whether this side
performed the resumption; the second is the flag afterwards. -/
def await_suspend_exchange (flag : Bool) : Bool × Bool :=
  let (old, flag') := exchange_flag flag true
  (old, flag')

/-- The other side of the resumption race.  `resume` runs
`if (m_readyToResume.exchange(true)) resume_impl()`: this side resumes the
coroutine exactly when the exchange returned `true`. -/
def resume_exchange (flag : Bool) : Bool × Bool :=
  let (old, flag') := exchange_flag flag true
  (old, flag')

/-- The two interleavings of the two atomic exchanges: since each side's
access to `ready_to_resume` is a single atomic read-modify-write, an
interleaving is determined by which exchange executes first. -/
inductive ExchangeOrder
  | suspendFirst
  | resumeFirst

/-- Run the race from the constructor's initial state
`m_readyToResume = false` in the given order; result:
(`await_suspend` performed the resumption, `resume` performed the resumption). -/
def resumption_race (order : ExchangeOrder) : Bool × Bool :=
  match order with
  | ExchangeOrder.suspendFirst =>
    let (sPerforms, flag1) := await_suspend_exchange false
    let (rPerforms, _) := resume_exchange flag1
    (sPerforms, rPerforms)
  | ExchangeOrder.resumeFirst =>
    let (rPerforms, flag1) := resume_exchange false
    let (sPerforms, _) := await_suspend_exchange flag1
    (sPerforms, rPerforms)

/-- C9: in every interleaving of `await_suspend` with a concurrent `resume`,
exactly one of the two sides performs the resumption of the awaiting
coroutine — never zero and never both. -/
theorem resumption_race_exactly_one (order : ExchangeOrder) :
    ((resumption_race order).1 = true ∧ (resumption_race order).2 = false)
    ∨ ((resumption_race order).1 = false ∧ (resumption_race order).2 = true) := by
  cases order <;> simp [resumption_race, await_suspend_exchange, resume_exchange,
    exchange_flag]

end Macoro

namespace Coproto

/-- The four scheduler statuses (`SockScheduler::Status`). -/
inductive Status
  | Idle
  | InUse
  | RequestedRecvOp
  | Closed
deriving DecidableEq

/-- A 128-bit `SessionID`: its 16 bytes `mVal`. -/
structure SessionID where
  mVal : Fin 16 → Nat
deriving DecidableEq

/-- The meta-frame control type (`ControlBlock::Type`); `NewSlot` is the only
defined value. -/
inductive ControlBlockType
  | NewSlot
deriving DecidableEq

/-- A `SockScheduler::ControlBlock`: 16 data bytes. -/
structure ControlBlock where
  data : Fin 16 → Nat
deriving DecidableEq

/-- `ControlBlock::setSessionID`: `memcpy(data, id.mVal, 16)`. -/
def setSessionID (cb : ControlBlock) (id : SessionID) : ControlBlock :=
  { data := fun i => id.mVal i }

/-- `ControlBlock::getSessionID`: `memcpy(ret.mVal, data, 16)`. -/
def getSessionID (cb : ControlBlock) : SessionID :=
  { mVal := fun i => cb.data i }

/-- `ControlBlock::setType`: the body is empty — a no-op. -/
def setType (cb : ControlBlock) (t : ControlBlockType) : ControlBlock := cb

/-- `ControlBlock::getType`: returns `Type::NewSlot` unconditionally. -/
def getType (cb : ControlBlock) : ControlBlockType := ControlBlockType.NewSlot

/-- C10: `getSessionID` after `setSessionID(id)` returns `id` exactly;
`setType(t)` leaves the 16 data bytes unchanged for every `t`; and `getType`
returns `NewSlot` for every control block. -/
theorem controlBlock_codec_properties (cb : ControlBlock) (id : SessionID)
    (t : ControlBlockType) :
    getSessionID (setSessionID cb id) = id
    ∧ (setType cb t).data = cb.data
    ∧ getType cb = ControlBlockType.NewSlot :=
  ⟨rfl, rfl, rfl⟩

/-- The destructor body of `SockScheduler`: it calls `std::terminate()` after
a diagnostic exactly when `mRecvStatus == Status::InUse || mSendStatus ==
Status::InUse`. -/
def destructor_terminates (mRecvStatus mSendStatus : Status) : Bool :=
  mRecvStatus == Status.InUse || mSendStatus == Status.InUse

/-- C8: destroying a `SockScheduler` whose send status or recv status is
`Status::InUse` aborts the process; with both statuses not `InUse` it does
not abort. -/
theorem destructor_terminates_iff_inUse (mRecvStatus mSendStatus : Status) :
    destructor_terminates mRecvStatus mSendStatus = true
      ↔ (mSendStatus = Status.InUse ∨ mRecvStatus = Status.InUse) := by
  cases mRecvStatus <;> cases mSendStatus <;> simp [destructor_terminates]

/-- A queued send operation (`SockScheduler::SendOperation2`): identified by
an id, with its `mInProgress` flag.  The buffer, completion handle and tokens
are represented by the effect record of the cancellation callback. -/
structure SendOperation2 where
  opId : Nat
  mInProgress : Bool
deriving DecidableEq

/-- A queued receive operation (`SockScheduler::RecvOperation2`). -/
structure RecvOperation2 where
  opId : Nat
  mInProgress : Bool
deriving DecidableEq

/-- The scheduler state touched by the two cancellation callbacks: per-slot
send queues (`Slot::mSendOps2_`), the global pending-send slot list
(`mSendBuffers_`), the send status, per-slot recv queues (`Slot::mRecvOps2_`),
the pending-recv count (`mNumRecvs`) and the recv status. -/
structure SchedState where
  mSendOps : Nat → List SendOperation2
  mSendBuffers : List Nat
  mSendStatus : Status
  mRecvOps : Nat → List RecvOperation2
  mNumRecvs : Nat
  mRecvStatus : Status

/-- What a cancellation callback did besides updating the state: whether the
op's buffer was failed with `operation_aborted`, whether the op's completion
handle was resumed, and whether the scheduler-wide cancel source was asked to
stop instead. -/
structure CancelEffects where
  failedWithAborted : Bool
  resumedCompletion : Bool
  requestedSchedulerStop : Bool
deriving DecidableEq

/-- The stop-callback of `SendOperation2` (SocketScheduler.h lines 256-294):
if the op has not started (`mInProgress == false`), fail its buffer with
`operation_aborted`, collect its completion handle, erase the first occurrence
of its slot from `mSendBuffers_`, erase the op from the slot's queue, and set
the send status to `Idle` if the global list became empty; otherwise forward
the stop request to the scheduler's send cancel source. -/
def send_cancel_callback (st : SchedState) (sid : Nat) (op : SendOperation2) :
    SchedState × CancelEffects :=
  if op.mInProgress = false then
    let buffers := st.mSendBuffers.erase sid
    ({ st with
        mSendOps := fun s => if s = sid then (st.mSendOps sid).erase op else st.mSendOps s
        mSendBuffers := buffers
        mSendStatus := if buffers = [] then Status.Idle else st.mSendStatus },
      ⟨true, true, false⟩)
  else
    (st, ⟨false, false, true⟩)

/-- The stop-callback of `RecvOperation2` (SocketScheduler.h lines 175-213):
if the op has not started, fail its buffer with `operation_aborted`, collect
its completion handle, erase the op from the slot's recv queue, decrement
`mNumRecvs`, and set the recv status to `Idle` when the count reaches zero;
otherwise forward the stop request to the recv cancel source. -/
def recv_cancel_callback (st : SchedState) (sid : Nat) (op : RecvOperation2) :
    SchedState × CancelEffects :=
  if op.mInProgress = false then
    let n := st.mNumRecvs - 1
    ({ st with
        mRecvOps := fun s => if s = sid then (st.mRecvOps sid).erase op else st.mRecvOps s
        mNumRecvs := n
        mRecvStatus := if n = 0 then Status.Idle else st.mRecvStatus },
      ⟨true, true, false⟩)
  else
    (st, ⟨false, false, true⟩)

/-- C7: cancelling a not-yet-started SendOp removes it from its slot's queue,
removes its slot's entry from the global pending-send list, fails it with
`operation_aborted`, resumes its completion handle, and moves the send status
to `Idle` when the global list empties; symmetrically, cancelling a
not-yet-started RecvOp removes it, decrements the recv count, and moves the
recv status to `Idle` when the count reaches zero. -/
theorem cancel_not_started_removes_and_fails
    (st : SchedState) (sid rsid : Nat) (sop : SendOperation2) (rop : RecvOperation2)
    (hS : sop.mInProgress = false) (hR : rop.mInProgress = false)
    (hScount : (st.mSendOps sid).count sop = 1)
    (hsid : sid ∈ st.mSendBuffers)
    (hRcount : (st.mRecvOps rsid).count rop = 1)
    (hnum : 0 < st.mNumRecvs) :
    sop ∉ ((send_cancel_callback st sid sop).1.mSendOps sid)
    ∧ ((send_cancel_callback st sid sop).1.mSendOps sid).length + 1
        = (st.mSendOps sid).length
    ∧ ((send_cancel_callback st sid sop).1.mSendBuffers).length + 1
        = st.mSendBuffers.length
    ∧ (send_cancel_callback st sid sop).2.failedWithAborted = true
    ∧ (send_cancel_callback st sid sop).2.resumedCompletion = true
    ∧ ((send_cancel_callback st sid sop).1.mSendBuffers = []
        → (send_cancel_callback st sid sop).1.mSendStatus = Status.Idle)
    ∧ rop ∉ ((recv_cancel_callback st rsid rop).1.mRecvOps rsid)
    ∧ (recv_cancel_callback st rsid rop).1.mNumRecvs + 1 = st.mNumRecvs
    ∧ (recv_cancel_callback st rsid rop).2.failedWithAborted = true
    ∧ (recv_cancel_callback st rsid rop).2.resumedCompletion = true
    ∧ ((recv_cancel_callback st rsid rop).1.mNumRecvs = 0
        → (recv_cancel_callback st rsid rop).1.mRecvStatus = Status.Idle) := by
  have hSmem : sop ∈ st.mSendOps sid := List.count_pos_iff.1 (by omega)
  have hRmem : rop ∈ st.mRecvOps rsid := List.count_pos_iff.1 (by omega)
  have eS : send_cancel_callback st sid sop =
      ({ st with
          mSendOps := fun s => if s = sid then (st.mSendOps sid).erase sop else st.mSendOps s
          mSendBuffers := st.mSendBuffers.erase sid
          mSendStatus := if st.mSendBuffers.erase sid = [] then Status.Idle
            else st.mSendStatus },
        ⟨true, true, false⟩) := by
    rw [send_cancel_callback, if_pos hS]
  have eR : recv_cancel_callback st rsid rop =
      ({ st with
          mRecvOps := fun s => if s = rsid then (st.mRecvOps rsid).erase rop else st.mRecvOps s
          mNumRecvs := st.mNumRecvs - 1
          mRecvStatus := if st.mNumRecvs - 1 = 0 then Status.Idle
            else st.mRecvStatus },
        ⟨true, true, false⟩) := by
    rw [recv_cancel_callback, if_pos hR]
  rw [eS, eR]
  refine ⟨?_, ?_, ?_, rfl, rfl, ?_, ?_, ?_, rfl, rfl, ?_⟩
  · show sop ∉ (if sid = sid then (st.mSendOps sid).erase sop else st.mSendOps sid)
    rw [if_pos rfl]
    intro hmem
    have hc := List.count_erase_self sop (st.mSendOps sid)
    rw [hScount] at hc
    exact absurd hmem (List.count_eq_zero.1 (by omega))
  · show (if sid = sid then (st.mSendOps sid).erase sop else st.mSendOps sid).length + 1
        = (st.mSendOps sid).length
    rw [if_pos rfl, List.length_erase_of_mem hSmem]
    have := List.length_pos_of_mem hSmem
    omega
  · show (st.mSendBuffers.erase sid).length + 1 = st.mSendBuffers.length
    rw [List.length_erase_of_mem hsid]
    have := List.length_pos_of_mem hsid
    omega
  · show st.mSendBuffers.erase sid = []
        → (if st.mSendBuffers.erase sid = [] then Status.Idle else st.mSendStatus)
          = Status.Idle
    intro h; rw [if_pos h]
  · show rop ∉ (if rsid = rsid then (st.mRecvOps rsid).erase rop else st.mRecvOps rsid)
    rw [if_pos rfl]
    intro hmem
    have hc := List.count_erase_self rop (st.mRecvOps rsid)
    rw [hRcount] at hc
    exact absurd hmem (List.count_eq_zero.1 (by omega))
  · show st.mNumRecvs - 1 + 1 = st.mNumRecvs
    omega
  · show st.mNumRecvs - 1 = 0
        → (if st.mNumRecvs - 1 = 0 then Status.Idle else st.mRecvStatus) = Status.Idle
    intro h; rw [if_pos h]

/-- A concrete scheduler state for the C7 witness: one pending send op on
slot 5 and one pending recv op on slot 7. -/
def sample_sched : SchedState :=
  { mSendOps := fun s => if s = 5 then [⟨0, false⟩] else []
  , mSendBuffers := [5]
  , mSendStatus := Status.InUse
  , mRecvOps := fun s => if s = 7 then [⟨1, false⟩] else []
  , mNumRecvs := 1
  , mRecvStatus := Status.InUse }

/-- Witness for C7 at `sample_sched`: cancelling the single queued send op on
slot 5 and the single queued recv op on slot 7. -/
theorem cancel_not_started_removes_and_fails_witness :
    ((SendOperation2.mk 0 false).mInProgress = false
      ∧ (RecvOperation2.mk 1 false).mInProgress = false
      ∧ (sample_sched.mSendOps 5).count ⟨0, false⟩ = 1
      ∧ 5 ∈ sample_sched.mSendBuffers
      ∧ (sample_sched.mRecvOps 7).count ⟨1, false⟩ = 1
      ∧ 0 < sample_sched.mNumRecvs)
    ∧ ((SendOperation2.mk 0 false)
          ∉ ((send_cancel_callback sample_sched 5 ⟨0, false⟩).1.mSendOps 5)
      ∧ ((send_cancel_callback sample_sched 5 ⟨0, false⟩).1.mSendOps 5).length + 1
          = (sample_sched.mSendOps 5).length
      ∧ ((send_cancel_callback sample_sched 5 ⟨0, false⟩).1.mSendBuffers).length + 1
          = sample_sched.mSendBuffers.length
      ∧ (send_cancel_callback sample_sched 5 ⟨0, false⟩).2.failedWithAborted = true
      ∧ (send_cancel_callback sample_sched 5 ⟨0, false⟩).2.resumedCompletion = true
      ∧ ((send_cancel_callback sample_sched 5 ⟨0, false⟩).1.mSendBuffers = []
          → (send_cancel_callback sample_sched 5 ⟨0, false⟩).1.mSendStatus = Status.Idle)
      ∧ (RecvOperation2.mk 1 false)
          ∉ ((recv_cancel_callback sample_sched 7 ⟨1, false⟩).1.mRecvOps 7)
      ∧ (recv_cancel_callback sample_sched 7 ⟨1, false⟩).1.mNumRecvs + 1
          = sample_sched.mNumRecvs
      ∧ (recv_cancel_callback sample_sched 7 ⟨1, false⟩).2.failedWithAborted = true
      ∧ (recv_cancel_callback sample_sched 7 ⟨1, false⟩).2.resumedCompletion = true
      ∧ ((recv_cancel_callback sample_sched 7 ⟨1, false⟩).1.mNumRecvs = 0
          → (recv_cancel_callback sample_sched 7 ⟨1, false⟩).1.mRecvStatus = Status.Idle)) :=
  ⟨⟨rfl, rfl, by decide, by decide, by decide, by decide⟩,
    cancel_not_started_removes_and_fails sample_sched 5 7 ⟨0, false⟩ ⟨1, false⟩
      rfl rfl (by decide) (by decide) (by decide) (by decide)⟩

/-- One entry of the writer task's work list: the head op of the next pending
slot, reduced to its slot id and payload size (`data.size() != 0` is asserted
in the source). -/
structure WriterOp where
  slotId : Nat
  size : Nat
deriving DecidableEq

/-- A frame as it appears on the wire: a NewSlot meta frame
(`[0, slot-id, SessionID]`) or a data frame (`[size, slot-id, payload]`). -/
inductive Frame
  | meta (slotId : Nat) (sid : SessionID)
  | data (slotId : Nat) (payloadSize : Nat)
deriving DecidableEq

/-- Does this frame announce slot `s`? -/
def isMetaFor (s : Nat) : Frame → Bool
  | Frame.meta slotId _ => slotId == s
  | Frame.data _ _ => false

/-- Does this frame carry data for slot `s`? -/
def isDataFor (s : Nat) : Frame → Bool
  | Frame.meta _ _ => false
  | Frame.data slotId _ => slotId == s

/-- The frame trace of `makeSendTask`'s loop (SocketScheduler.h lines
759-892) on an error-free run: for each op, if its slot has
`mInitiated == false`, set `mInitiated = true` and transmit a NewSlot meta
frame binding the slot's local id to its SessionID, then transmit the header
and payload (one data frame). -/
def sendTaskRun (sessionOf : Nat → SessionID) (initiated : Nat → Bool) :
    List WriterOp → List Frame
  | [] => []
  | op :: ops =>
    if initiated op.slotId then
      Frame.data op.slotId op.size :: sendTaskRun sessionOf initiated ops
    else
      Frame.meta op.slotId (sessionOf op.slotId)
        :: Frame.data op.slotId op.size
        :: sendTaskRun sessionOf
            (fun s => if s = op.slotId then true else initiated s) ops

/-- The `mInitiated` flags after the writer task has processed the given
ops. -/
def sendTaskInitiated (initiated : Nat → Bool) : List WriterOp → Nat → Bool
  | [] => initiated
  | op :: ops =>
    if initiated op.slotId then
      sendTaskInitiated initiated ops
    else
      sendTaskInitiated (fun s => if s = op.slotId then true else initiated s) ops

/-- A slot whose `mInitiated` flag is already set never gets another meta
frame from the writer task. -/
theorem sendTaskRun_no_meta_of_initiated (sessionOf : Nat → SessionID) :
    ∀ (ops : List WriterOp) (initiated : Nat → Bool) (s : Nat),
      initiated s = true →
      (sendTaskRun sessionOf initiated ops).countP (isMetaFor s) = 0 := by
  intro ops
  induction ops with
  | nil => intro initiated s _; rfl
  | cons op ops ih =>
    intro initiated s h
    by_cases hop : initiated op.slotId
    · simp only [sendTaskRun, hop, if_pos]
      rw [List.countP_cons_of_neg]
      · exact ih initiated s h
      · simp [isDataFor, isMetaFor]
    · have hne : op.slotId ≠ s := fun e => hop (e ▸ h)
      simp only [sendTaskRun, hop, if_neg, Bool.false_eq_true, not_false_iff]
      rw [List.countP_cons_of_neg, List.countP_cons_of_neg]
      · exact ih _ s (by simp [h])
      · simp [isMetaFor]
      · simp [isMetaFor, hne]

/-- After the writer task has processed an op on slot `s`, the slot's
`mInitiated` flag is (and stays) true. -/
theorem sendTaskInitiated_true :
    ∀ (ops : List WriterOp) (initiated : Nat → Bool) (s : Nat),
      (initiated s = true ∨ s ∈ ops.map WriterOp.slotId) →
      sendTaskInitiated initiated ops s = true := by
  intro ops
  induction ops with
  | nil =>
    intro initiated s h
    rcases h with h | h
    · exact h
    · simp at h
  | cons op ops ih =>
    intro initiated s h
    by_cases hop : initiated op.slotId
    · simp only [sendTaskInitiated, hop, if_pos]
      apply ih
      rcases h with h | h
      · exact Or.inl h
      · simp only [List.map_cons, List.mem_cons] at h
        rcases h with h | h
        · exact Or.inl (h ▸ hop)
        · exact Or.inr h
    · simp only [sendTaskInitiated, hop, Bool.false_eq_true, if_neg, not_false_iff]
      apply ih
      by_cases hs : s = op.slotId
      · exact Or.inl (by simp [hs])
      · rcases h with h | h
        · exact Or.inl (by simp [hs, h])
        · simp only [List.map_cons, List.mem_cons] at h
          rcases h with h | h
          · exact absurd h hs
          · exact Or.inr h

/-- On an error-free run from a state where slot `s` is uninitiated, the
writer's trace decomposes as clean prefix, NewSlot meta frame for `s`, the
slot's first data frame, and a tail with no further meta frame for `s`. -/
theorem sendTaskRun_decompose (sessionOf : Nat → SessionID) :
    ∀ (ops : List WriterOp) (initiated : Nat → Bool) (s : Nat),
      initiated s = false → s ∈ ops.map WriterOp.slotId →
      ∃ l1 l2 sid sz,
        sendTaskRun sessionOf initiated ops
          = l1 ++ Frame.meta s sid :: Frame.data s sz :: l2
        ∧ (∀ f ∈ l1, isMetaFor s f = false ∧ isDataFor s f = false)
        ∧ l2.countP (isMetaFor s) = 0 := by
  intro ops
  induction ops with
  | nil => intro initiated s _ h; simp at h
  | cons op ops ih =>
    intro initiated s hini hmem
    by_cases hop : op.slotId = s
    · subst hop
      have hfalse : initiated op.slotId = false := hini
      refine ⟨[], sendTaskRun sessionOf
          (fun t => if t = op.slotId then true else initiated t) ops,
        sessionOf op.slotId, op.size, ?_, ?_, ?_⟩
      · simp only [sendTaskRun, hfalse, Bool.false_eq_true, if_neg, not_false_iff,
          List.nil_append]
      · intro f hf; simp at hf
      · exact sendTaskRun_no_meta_of_initiated sessionOf ops _ op.slotId (by simp)
    · have hmem' : s ∈ ops.map WriterOp.slotId := by
        simp only [List.map_cons, List.mem_cons] at hmem
        rcases hmem with h | h
        · exact absurd h.symm hop
        · exact h
      by_cases hinit : initiated op.slotId
      · obtain ⟨l1, l2, sid, sz, he, hclean, htail⟩ := ih initiated s hini hmem'
        refine ⟨Frame.data op.slotId op.size :: l1, l2, sid, sz, ?_, ?_, htail⟩
        · simp only [sendTaskRun, hinit, if_pos, he, List.cons_append]
        · intro f hf
          rcases List.mem_cons.1 hf with h | h
          · subst h; simp [isMetaFor, isDataFor, hop]
          · exact hclean f h
      · have hop' : s ≠ op.slotId := fun e => hop e.symm
        have hini' : (fun t => if t = op.slotId then true else initiated t) s = false := by
          simp [hop', hini]
        obtain ⟨l1, l2, sid, sz, he, hclean, htail⟩ :=
          ih (fun t => if t = op.slotId then true else initiated t) s hini' hmem'
        refine ⟨Frame.meta op.slotId (sessionOf op.slotId)
            :: Frame.data op.slotId op.size :: l1, l2, sid, sz, ?_, ?_, htail⟩
        · simp only [sendTaskRun, hinit, Bool.false_eq_true, if_neg, not_false_iff, he,
            List.cons_append]
        · intro f hf
          rcases List.mem_cons.1 hf with h | h
          · subst h; simp [isMetaFor, isDataFor, hop]
          · rcases List.mem_cons.1 h with h2 | h2
            · subst h2; simp [isMetaFor, isDataFor, hop]
            · exact hclean f h2

/-- C3: on an error-free run of the writer task where every slot starts
uninitiated, for every slot `s` that sends any data: the emitted byte
sequence contains exactly one NewSlot meta frame for `s`; that meta frame
precedes the slot's first data frame (no earlier frame mentions `s`, the
frame right after the meta is the slot's first data frame); and once the ops
processed so far include one on `s`, the slot's `mInitiated` flag is true and
the remainder of the run emits no further meta frame for `s`. -/
theorem writer_emits_newSlot_once_before_data (sessionOf : Nat → SessionID)
    (ops : List WriterOp) (s : Nat) (hmem : s ∈ ops.map WriterOp.slotId) :
    (sendTaskRun sessionOf (fun _ => false) ops).countP (isMetaFor s) = 1
    ∧ (∃ l1 l2 sid sz,
        sendTaskRun sessionOf (fun _ => false) ops
          = l1 ++ Frame.meta s sid :: Frame.data s sz :: l2
        ∧ (∀ f ∈ l1, isMetaFor s f = false ∧ isDataFor s f = false)
        ∧ l2.countP (isMetaFor s) = 0)
    ∧ (∀ pre post, ops = pre ++ post → s ∈ pre.map WriterOp.slotId →
        sendTaskInitiated (fun _ => false) pre s = true
        ∧ (sendTaskRun sessionOf (sendTaskInitiated (fun _ => false) pre) post).countP
            (isMetaFor s) = 0) := by
  obtain ⟨l1, l2, sid, sz, he, hclean, htail⟩ :=
    sendTaskRun_decompose sessionOf ops (fun _ => false) s rfl hmem
  refine ⟨?_, ⟨l1, l2, sid, sz, he, hclean, htail⟩, ?_⟩
  · rw [he, List.countP_append, List.countP_cons_of_pos, List.countP_cons_of_neg]
    · have h1 : l1.countP (isMetaFor s) = 0 :=
        List.countP_eq_zero.2 fun f hf => by simp [(hclean f hf).1]
      omega
    · simp [isMetaFor]
    · simp [isMetaFor]
  · intro pre post _ hpre
    have hflag : sendTaskInitiated (fun _ => false) pre s = true :=
      sendTaskInitiated_true pre (fun _ => false) s (Or.inr hpre)
    exact ⟨hflag, sendTaskRun_no_meta_of_initiated sessionOf post _ s hflag⟩

/-- Witness for C3: two ops on slot 1 and one on slot 2. -/
def sample_ops : List WriterOp := [⟨1, 3⟩, ⟨2, 5⟩, ⟨1, 2⟩]

/-- A concrete session-id assignment for the C3 witness. -/
def sample_sessionOf : Nat → SessionID := fun _ => ⟨fun _ => 0⟩

/-- Witness for C3 at `sample_ops`, slot 1. -/
theorem writer_emits_newSlot_once_before_data_witness :
    (1 ∈ sample_ops.map WriterOp.slotId)
    ∧ ((sendTaskRun sample_sessionOf (fun _ => false) sample_ops).countP (isMetaFor 1) = 1
      ∧ (∃ l1 l2 sid sz,
          sendTaskRun sample_sessionOf (fun _ => false) sample_ops
            = l1 ++ Frame.meta 1 sid :: Frame.data 1 sz :: l2
          ∧ (∀ f ∈ l1, isMetaFor 1 f = false ∧ isDataFor 1 f = false)
          ∧ l2.countP (isMetaFor 1) = 0)
      ∧ (∀ pre post, sample_ops = pre ++ post → 1 ∈ pre.map WriterOp.slotId →
          sendTaskInitiated (fun _ => false) pre 1 = true
          ∧ (sendTaskRun sample_sessionOf
              (sendTaskInitiated (fun _ => false) pre) post).countP (isMetaFor 1) = 0)) :=
  ⟨by simp [sample_ops],
    writer_emits_newSlot_once_before_data sample_sessionOf sample_ops 1
      (by simp [sample_ops])⟩

/-- Error codes appearing on the receive path (`coproto::code`). -/
inductive error_code
  | success
  | closed
  | badCoprotoMessageHeader
  | cancel
  | operation_aborted
deriving DecidableEq

/-- The receiver task's dispatch after `getRequestedRecvSlot` returns
(SocketScheduler.h lines 698-721): if the scheduler is closed, the error is
`closed`; if no slot matched the header (`!iter`), the error is
`badCoprotoMessageHeader`; otherwise the head RecvOp's buffer span
(`asSpan(header size)`, carried here as its resulting size) is compared
against the header's size, and on disagreement the error is `cancel`;
otherwise the body read proceeds with no error. -/
def recv_header_dispatch (mClosed : Bool) (iter : Option Nat) (headerSize : Nat) :
    error_code :=
  if mClosed then error_code.closed
  else
    match iter with
    | none => error_code.badCoprotoMessageHeader
    | some bufferSize =>
      if bufferSize ≠ headerSize then error_code.cancel else error_code.success

/-- What the receive loop does with an error code raised by the dispatch. -/
structure RecvErrorHandling where
  failsHeadOp : Bool
  closesScheduler : Bool
deriving DecidableEq

/-- Modelled from the spec: the bodies of `anyRecvOp` and `close`, which
consume the error code on the next loop iteration, live in a coproto source
file that is not part of this repository snapshot (only their declarations
are).  Per the documentation's receive contract and error taxonomy (§4.4,
§7), a nonzero error fails the pending op with that error; cancellation of a
single op (`operation_aborted`) leaves the scheduler running, while every
other error — protocol violation, closure, mismatch — closes the
scheduler. -/
def handle_recv_error : error_code → RecvErrorHandling
  | error_code.success => ⟨false, false⟩
  | error_code.operation_aborted => ⟨true, false⟩
  | _ => ⟨true, true⟩

/-- C2 (counterexample): when the head RecvOp's buffer size (4) disagrees
with the data-frame header's size (8), the receiver sets `code::cancel`, not
`badCoprotoMessageHeader`. -/
theorem recv_size_mismatch_error_is_cancel_not_badHeader :
    recv_header_dispatch false (some 4) 8 = error_code.cancel
    ∧ recv_header_dispatch false (some 4) 8 ≠ error_code.badCoprotoMessageHeader := by
  exact ⟨rfl, by decide⟩

/-- C2 (amended): whenever the head RecvOp's declared buffer size disagrees
with the received data-frame header's size, that op is failed with the
size-mismatch error `cancel` (not `badCoprotoMessageHeader`, which is raised
when no slot matches the header) and the scheduler is closed. -/
theorem recv_size_mismatch_fails_op_with_cancel_and_closes
    (bufferSize headerSize : Nat) (h : bufferSize ≠ headerSize) :
    recv_header_dispatch false (some bufferSize) headerSize = error_code.cancel
    ∧ (handle_recv_error
        (recv_header_dispatch false (some bufferSize) headerSize)).failsHeadOp = true
    ∧ (handle_recv_error
        (recv_header_dispatch false (some bufferSize) headerSize)).closesScheduler
      = true := by
  simp [recv_header_dispatch, h, handle_recv_error]

/-- Witness for the amended C2 at buffer size 4 against header size 8. -/
theorem recv_size_mismatch_fails_op_with_cancel_and_closes_witness :
    ((4 : Nat) ≠ 8)
    ∧ (recv_header_dispatch false (some 4) 8 = error_code.cancel
      ∧ (handle_recv_error (recv_header_dispatch false (some 4) 8)).failsHeadOp = true
      ∧ (handle_recv_error (recv_header_dispatch false (some 4) 8)).closesScheduler
        = true) :=
  ⟨by decide, recv_size_mismatch_fails_op_with_cancel_and_closes 4 8 (by decide)⟩

end Coproto
